import Mathlib

/-!
Verification development for the online-assignment-system repository.

The authorization core of the repository lives in the database migration
(`src/unnamed/part_002`): tables, row-level-security policies, the role
lookup functions `has_role` / `get_user_role`, the `handle_new_user`
signup trigger and the `updated_at` triggers.  The client-side operations
that write to the store are `CreateAssignment.handleSubmit`,
`SubmitAssignment.handleSubmit` and `Submissions.handleGradeSubmit`
(`src/unnamed/part_001`).

This file embeds that model shallowly: UUIDs become `Nat`, timestamps
become `Nat`, tables become lists of rows, each SQL policy becomes a
`Bool`-valued predicate, and each write becomes a function from database
state to `Except DbError` of the new state.  Storage object names are
modelled as their list of `/`-separated segments.
-/

namespace OnlineAssignmentSystem

/-- Opaque identity issued by the identity provider (`auth.users.id`). -/
abbrev UserId := Nat

/-- `CREATE TYPE public.app_role AS ENUM ('teacher', 'student')`. -/
inductive AppRole where
  | teacher
  | student
deriving DecidableEq, Repr

/-- `CREATE TYPE public.submission_status AS ENUM ('pending', 'submitted', 'graded')`. -/
inductive SubmissionStatus where
  | pending
  | submitted
  | graded
deriving DecidableEq, Repr

/-- Row of `auth.users` as seen by the `handle_new_user` trigger:
the id, the `raw_user_meta_data ->> 'full_name'` field and the email. -/
structure AuthUser where
  id : UserId
  raw_full_name : Option String
  email : String
deriving DecidableEq, Repr

/-- Row of `public.profiles`. -/
structure ProfileRow where
  id : UserId
  full_name : String
  email : String
  created_at : Nat
  updated_at : Nat
deriving DecidableEq, Repr

/-- Row of `public.user_roles`; `UNIQUE (user_id, role)`. -/
structure UserRoleRow where
  id : Nat
  user_id : UserId
  role : AppRole
deriving DecidableEq, Repr

/-- Row of `public.assignments`. -/
structure AssignmentRow where
  id : Nat
  title : String
  description : Option String
  subject : String
  due_date : Nat
  max_score : Int
  created_by : UserId
  created_at : Nat
  updated_at : Nat
deriving DecidableEq, Repr

/-- Row of `public.submissions`; `UNIQUE (assignment_id, student_id)`. -/
structure SubmissionRow where
  id : Nat
  assignment_id : Nat
  student_id : UserId
  file_url : String
  file_name : String
  submitted_at : Nat
  grade : Option Int
  feedback : Option String
  status : SubmissionStatus
  graded_at : Option Nat
deriving DecidableEq, Repr

/-- Object of `storage.objects`; the name is kept as its `/`-separated
segments. -/
structure StorageObject where
  bucket_id : String
  pathSegs : List String
deriving DecidableEq, Repr

/-- The whole persisted state. -/
structure Db where
  users : List AuthUser
  profiles : List ProfileRow
  user_roles : List UserRoleRow
  assignments : List AssignmentRow
  submissions : List SubmissionRow
  objects : List StorageObject
deriving DecidableEq, Repr

def emptyDb : Db :=
  { users := [], profiles := [], user_roles := [], assignments := [],
    submissions := [], objects := [] }

/-- `public.has_role(_user_id, _role)`:
`SELECT EXISTS (SELECT 1 FROM user_roles WHERE user_id = _user_id AND role = _role)`. -/
def has_role (db : Db) (uid : UserId) (r : AppRole) : Bool :=
  db.user_roles.any fun ur => ur.user_id == uid && decide (ur.role = r)

/-- `public.get_user_role(_user_id)`:
`SELECT role FROM user_roles WHERE user_id = _user_id LIMIT 1`.
The unordered `LIMIT 1` is modelled as the first matching row. -/
def get_user_role (db : Db) (uid : UserId) : Option AppRole :=
  ((db.user_roles.filter fun ur => ur.user_id == uid).head?).map (·.role)

/-! ## Row-level-security policies

Each definition below is one `CREATE POLICY` of the migration; the
per-verb permission is the disjunction of the policies declared for
that table and verb.  None of the `UPDATE` policies declares a separate
`WITH CHECK`, so the `USING` predicate also gates the written row. -/

/-- Policies "Users can view their own profile" OR "Teachers can view all profiles". -/
def profileSelectAllowed (db : Db) (uid : UserId) (r : ProfileRow) : Bool :=
  uid == r.id || has_role db uid .teacher

/-- Policy "Users can update their own profile". -/
def profileUpdateAllowed (_db : Db) (uid : UserId) (r : ProfileRow) : Bool :=
  uid == r.id

/-- Policy "Users can insert their own profile". -/
def profileInsertAllowed (_db : Db) (uid : UserId) (r : ProfileRow) : Bool :=
  uid == r.id

/-- Policy "Users can view their own role". -/
def userRoleSelectAllowed (_db : Db) (uid : UserId) (r : UserRoleRow) : Bool :=
  uid == r.user_id

/-- Policy "Users can insert their own role during signup". -/
def userRoleInsertAllowed (_db : Db) (uid : UserId) (r : UserRoleRow) : Bool :=
  uid == r.user_id

/-- Policy "Everyone authenticated can view assignments". -/
def assignmentSelectAllowed (authenticated : Bool) : Bool :=
  authenticated

/-- Policy "Teachers can create assignments". -/
def assignmentInsertAllowed (db : Db) (uid : UserId) (row : AssignmentRow) : Bool :=
  has_role db uid .teacher && uid == row.created_by

/-- Policy "Teachers can update their own assignments". -/
def assignmentUpdateAllowed (db : Db) (uid : UserId) (r : AssignmentRow) : Bool :=
  has_role db uid .teacher && uid == r.created_by

/-- Policy "Teachers can delete their own assignments". -/
def assignmentDeleteAllowed (db : Db) (uid : UserId) (r : AssignmentRow) : Bool :=
  has_role db uid .teacher && uid == r.created_by

/-- Policies "Students can view their own submissions" OR "Teachers can view all submissions". -/
def submissionSelectAllowed (db : Db) (uid : UserId) (r : SubmissionRow) : Bool :=
  uid == r.student_id || has_role db uid .teacher

/-- Policy "Students can submit assignments". -/
def submissionInsertAllowed (db : Db) (uid : UserId) (row : SubmissionRow) : Bool :=
  has_role db uid .student && uid == row.student_id

/-- Policies "Students can update their own pending submissions" OR
"Teachers can grade submissions".  With no explicit `WITH CHECK`, this
predicate gates both the targeted (old) row and the written (new) row. -/
def submissionUpdateAllowed (db : Db) (uid : UserId) (r : SubmissionRow) : Bool :=
  (uid == r.student_id && decide (r.status = .submitted)) || has_role db uid .teacher

/-- `storage.foldername(name)`: the folder components of the object name,
i.e. every segment but the last. -/
def foldername (segs : List String) : List String :=
  segs.dropLast

/-- `(storage.foldername(name))[1]`: the first folder component. -/
def firstFolder (segs : List String) : Option String :=
  (foldername segs).head?

/-- The first segment of the path itself (the spec's "first path segment"). -/
def firstPathSegment (segs : List String) : Option String :=
  segs.head?

/-- Policy "Students can upload their own submissions":
`bucket_id = 'submissions' AND auth.uid()::text = (storage.foldername(name))[1]`. -/
def storageInsertAllowed (_db : Db) (uid : UserId) (o : StorageObject) : Bool :=
  o.bucket_id == "submissions" && decide (firstFolder o.pathSegs = some (toString uid))

/-- Policies "Students can view their own files" OR "Teachers can view all
submission files" OR "Teachers can download submission files" (the last
two coincide). -/
def storageSelectAllowed (db : Db) (uid : UserId) (o : StorageObject) : Bool :=
  (o.bucket_id == "submissions" && decide (firstFolder o.pathSegs = some (toString uid)))
  || (o.bucket_id == "submissions" && has_role db uid .teacher)
  || (o.bucket_id == "submissions" && has_role db uid .teacher)

/-! ## Write operations

Every write is a single atomic statement: it either returns the new
state or an error leaving the old state untouched. -/

inductive DbError where
  | rlsViolation
  | uniqueViolation
  | foreignKeyViolation
deriving DecidableEq, Repr

/-- `public.handle_new_user()`: the `AFTER INSERT ON auth.users` trigger body,
`INSERT INTO profiles (id, full_name, email)
 VALUES (NEW.id, COALESCE(NEW.raw_user_meta_data ->> 'full_name', 'User'), NEW.email)`.
A duplicate profile id violates the `profiles` primary key. -/
def handle_new_user (profiles : List ProfileRow) (u : AuthUser) (now : Nat) :
    Except DbError (List ProfileRow) :=
  if profiles.any (fun p => p.id == u.id) then .error .uniqueViolation
  else .ok (profiles ++
    [{ id := u.id, full_name := u.raw_full_name.getD "User", email := u.email,
       created_at := now, updated_at := now }])

/-- Identity creation: the insert into `auth.users` together with the
`on_auth_user_created` trigger, in one transaction — if the trigger's
insert fails the whole statement fails. -/
def createUser (db : Db) (u : AuthUser) (now : Nat) : Except DbError Db :=
  if db.users.any (fun v => v.id == u.id) then .error .uniqueViolation
  else
    match handle_new_user db.profiles u now with
    | .error e => .error e
    | .ok ps => .ok { db with users := db.users ++ [u], profiles := ps }

/-- Insert into `user_roles` as caller `uid`: gated by the signup insert
policy, then by `UNIQUE (user_id, role)` and the primary key. -/
def insertUserRole (db : Db) (uid : UserId) (row : UserRoleRow) : Except DbError Db :=
  if userRoleInsertAllowed db uid row then
    if db.user_roles.any (fun ur => ur.id == row.id
        || (ur.user_id == row.user_id && decide (ur.role = row.role))) then
      .error .uniqueViolation
    else .ok { db with user_roles := db.user_roles ++ [row] }
  else .error .rlsViolation

/-- Insert into `assignments` as caller `uid` (the write issued by
`CreateAssignment.handleSubmit`): gated by "Teachers can create
assignments", primary key and the `created_by` foreign key. -/
def insertAssignment (db : Db) (uid : UserId) (row : AssignmentRow) : Except DbError Db :=
  if assignmentInsertAllowed db uid row then
    if db.assignments.any (fun a => a.id == row.id) then .error .uniqueViolation
    else if db.users.any (fun v => v.id == row.created_by) then
      .ok { db with assignments := db.assignments ++ [row] }
    else .error .foreignKeyViolation
  else .error .rlsViolation

/-- Does a submission for the pair `(aid, sid)` already exist?
(`UNIQUE (assignment_id, student_id)`.) -/
def pairExists (subs : List SubmissionRow) (aid : Nat) (sid : UserId) : Bool :=
  subs.any fun s => s.assignment_id == aid && s.student_id == sid

/-- Insert into `submissions` as caller `uid`: gated by "Students can
submit assignments", the primary key, `UNIQUE (assignment_id, student_id)`
and the two foreign keys. -/
def insertSubmission (db : Db) (uid : UserId) (row : SubmissionRow) : Except DbError Db :=
  if submissionInsertAllowed db uid row then
    if db.submissions.any (fun s => s.id == row.id) then .error .uniqueViolation
    else if pairExists db.submissions row.assignment_id row.student_id then
      .error .uniqueViolation
    else if db.assignments.any (fun a => a.id == row.assignment_id)
        && db.users.any (fun v => v.id == row.student_id) then
      .ok { db with submissions := db.submissions ++ [row] }
    else .error .foreignKeyViolation
  else .error .rlsViolation

/-- The record inserted by `SubmitAssignment.handleSubmit` (lines 98-104):
`{ assignment_id, student_id: user.id, file_url: filePath, file_name,
status: 'submitted' }`; `grade`, `feedback` and `graded_at` take their
`NULL` defaults and `submitted_at` defaults to `NOW()`. -/
def clientSubmitRow (uid : UserId) (newId aid : Nat) (filePath fileName : String)
    (now : Nat) : SubmissionRow :=
  { id := newId, assignment_id := aid, student_id := uid, file_url := filePath,
    file_name := fileName, submitted_at := now, grade := none, feedback := none,
    status := .submitted, graded_at := none }

/-- `SubmitAssignment.handleSubmit`'s submission insert. -/
def clientSubmit (db : Db) (uid : UserId) (newId aid : Nat) (filePath fileName : String)
    (now : Nat) : Except DbError Db :=
  insertSubmission db uid (clientSubmitRow uid newId aid filePath fileName now)

/-- The rows of `submissions` after `UPDATE ... WHERE cond` by caller `uid`:
rows failing the update policies' `USING` are invisible and stay unchanged. -/
def submissionsAfterUpdate (db : Db) (uid : UserId) (cond : SubmissionRow → Bool)
    (f : SubmissionRow → SubmissionRow) : List SubmissionRow :=
  db.submissions.map fun s =>
    if cond s && submissionUpdateAllowed db uid s then f s else s

/-- `UPDATE submissions SET ... WHERE cond` executed as caller `uid`:
rows failing `USING` are invisible and stay unchanged; a written row
failing the (implicit) `WITH CHECK` aborts the whole statement. -/
def rlsUpdateSubmissions (db : Db) (uid : UserId) (cond : SubmissionRow → Bool)
    (f : SubmissionRow → SubmissionRow) : Except DbError Db :=
  if db.submissions.any (fun s => cond s && submissionUpdateAllowed db uid s
      && !(submissionUpdateAllowed db uid (f s))) then
    .error .rlsViolation
  else
    .ok { db with submissions := submissionsAfterUpdate db uid cond f }

/-- The column values written by `Submissions.handleGradeSubmit`
(lines 132-140): `{ grade, feedback, status: 'graded',
graded_at: new Date().toISOString() }`. -/
def applyGrade (g : Int) (fb : Option String) (now : Nat) (s : SubmissionRow) :
    SubmissionRow :=
  { s with grade := some g, feedback := fb, status := .graded, graded_at := some now }

/-- The update statement issued by `Submissions.handleGradeSubmit`:
`.update({grade, feedback, status:'graded', graded_at}).eq('id', subId)`. -/
def gradeSubmissionOp (db : Db) (uid : UserId) (subId : Nat) (g : Int)
    (fb : Option String) (now : Nat) : Except DbError Db :=
  rlsUpdateSubmissions db uid (fun s => s.id == subId) (applyGrade g fb now)

/-- `public.update_updated_at_column()` as fired by
`update_profiles_updated_at` (`BEFORE UPDATE ON profiles`):
`NEW.updated_at = NOW()`. -/
def update_updated_at_column (now : Nat) (r : ProfileRow) : ProfileRow :=
  { r with updated_at := now }

/-- `public.update_updated_at_column()` as fired by
`update_assignments_updated_at` (`BEFORE UPDATE ON assignments`). -/
def update_updated_at_assignment (now : Nat) (r : AssignmentRow) : AssignmentRow :=
  { r with updated_at := now }

/-- The rows of `profiles` after `UPDATE ... WHERE cond` by caller `uid`;
the before-update trigger rewrites `updated_at` on every written row,
whatever `f` put there. -/
def profilesAfterUpdate (db : Db) (uid : UserId) (cond : ProfileRow → Bool)
    (f : ProfileRow → ProfileRow) (now : Nat) : List ProfileRow :=
  db.profiles.map fun r =>
    if cond r && profileUpdateAllowed db uid r then update_updated_at_column now (f r) else r

/-- `UPDATE profiles SET ... WHERE cond` as caller `uid`, with the
`update_profiles_updated_at` trigger applied to every written row. -/
def rlsUpdateProfiles (db : Db) (uid : UserId) (cond : ProfileRow → Bool)
    (f : ProfileRow → ProfileRow) (now : Nat) : Except DbError Db :=
  if db.profiles.any (fun r => cond r && profileUpdateAllowed db uid r
      && !(profileUpdateAllowed db uid (update_updated_at_column now (f r)))) then
    .error .rlsViolation
  else
    .ok { db with profiles := profilesAfterUpdate db uid cond f now }

/-- The rows of `assignments` after `UPDATE ... WHERE cond` by caller `uid`,
with the before-update trigger applied to every written row. -/
def assignmentsAfterUpdate (db : Db) (uid : UserId) (cond : AssignmentRow → Bool)
    (f : AssignmentRow → AssignmentRow) (now : Nat) : List AssignmentRow :=
  db.assignments.map fun r =>
    if cond r && assignmentUpdateAllowed db uid r then update_updated_at_assignment now (f r) else r

/-- `UPDATE assignments SET ... WHERE cond` as caller `uid`, with the
`update_assignments_updated_at` trigger applied to every written row. -/
def rlsUpdateAssignments (db : Db) (uid : UserId) (cond : AssignmentRow → Bool)
    (f : AssignmentRow → AssignmentRow) (now : Nat) : Except DbError Db :=
  if db.assignments.any (fun r => cond r && assignmentUpdateAllowed db uid r
      && !(assignmentUpdateAllowed db uid (update_updated_at_assignment now (f r)))) then
    .error .rlsViolation
  else
    .ok { db with assignments := assignmentsAfterUpdate db uid cond f now }

/-- `DELETE FROM assignments WHERE cond` as caller `uid`: rows failing the
delete policy's `USING` are invisible and survive. -/
def rlsDeleteAssignments (db : Db) (uid : UserId) (cond : AssignmentRow → Bool) : Db :=
  let rows := db.assignments.filter fun a => !(cond a && assignmentDeleteAllowed db uid a)
  { db with assignments := rows }

/-! ## Client-side grading logic (`Submissions.handleGradeSubmit`) -/

/-- The joined `assignment` object of the `Submission` interface in
`src/unnamed/part_001`. -/
structure AssignmentInfo where
  id : Nat
  title : String
  subject : String
  max_score : Int
deriving DecidableEq, Repr

/-- `selectedSubmission.assignment?.max_score || 100`: JavaScript `||`
falls back to 100 when the assignment is absent and also when its
`max_score` is `0` (zero is falsy). -/
def effectiveMaxScore (assignment : Option AssignmentInfo) : Int :=
  match assignment with
  | some a => if a.max_score = 0 then 100 else a.max_score
  | none => 100

/-- The update payload built by `handleGradeSubmit`. -/
structure GradePayload where
  grade : Int
  feedback : Option String
  status : SubmissionStatus
  graded_at : Nat
deriving DecidableEq, Repr

/-- `Submissions.handleGradeSubmit` (lines 120-152), up to the issued
update request.  `Number(gradeValue)` is abstracted to an already parsed
`Option Int`, `none` standing for `NaN`.  The guard is
`isNaN(grade) || grade < 0 || grade > (assignment?.max_score || 100)`:
when it holds no request is issued (`none`); otherwise the update payload
is `{grade, feedback: feedbackValue || null, status: 'graded', graded_at: now}`. -/
def handleGradeSubmit (gradeValue : Option Int) (feedbackValue : String)
    (assignment : Option AssignmentInfo) (now : Nat) : Option GradePayload :=
  match gradeValue with
  | none => none
  | some g =>
    if g < 0 ∨ effectiveMaxScore assignment < g then none
    else some { grade := g,
                feedback := if feedbackValue = "" then none else some feedbackValue,
                status := .graded, graded_at := now }

/-- The storage path built by `SubmitAssignment.handleSubmit` (line 84):
`${user.id}/${id}/${Date.now()}.${fileExt}`, as its `/`-segments. -/
def submitFilePathSegs (uid : UserId) (assignmentId : Nat) (now : Nat)
    (fileExt : String) : List String :=
  [toString uid, toString assignmentId, toString now ++ "." ++ fileExt]

/-! ## Reachable states

The writes the codebase can issue: identity creation (with its trigger),
the signup role insert, assignment creation, submission upload and
grading.  All remaining pages only read. -/

inductive Step : Db → Db → Prop where
  | signup (u : AuthUser) (now : Nat) {db db' : Db} :
      createUser db u now = .ok db' → Step db db'
  | chooseRole (uid : UserId) (row : UserRoleRow) {db db' : Db} :
      insertUserRole db uid row = .ok db' → Step db db'
  | newAssignment (uid : UserId) (row : AssignmentRow) {db db' : Db} :
      insertAssignment db uid row = .ok db' → Step db db'
  | submit (uid : UserId) (newId aid : Nat) (fp fn : String) (now : Nat) {db db' : Db} :
      clientSubmit db uid newId aid fp fn now = .ok db' → Step db db'
  | grade (uid : UserId) (subId : Nat) (g : Int) (fb : Option String) (now : Nat)
      {db db' : Db} :
      gradeSubmissionOp db uid subId g fb now = .ok db' → Step db db'

inductive Reachable : Db → Prop where
  | init : Reachable emptyDb
  | next {db db' : Db} : Reachable db → Step db db' → Reachable db'

/-- At most one submission per `(assignment_id, student_id)` pair. -/
def uniquePairs (l : List SubmissionRow) : Prop :=
  l.Pairwise fun a b => ¬(a.assignment_id = b.assignment_id ∧ a.student_id = b.student_id)

/-- Every identity has a matching profile row. -/
def usersHaveProfiles (db : Db) : Prop :=
  ∀ u ∈ db.users, ∃ p ∈ db.profiles, p.id = u.id

/-- The profile row inserted by `handle_new_user` for the new identity `u`. -/
def newProfile (u : AuthUser) (now : Nat) : ProfileRow :=
  { id := u.id, full_name := u.raw_full_name.getD "User", email := u.email,
    created_at := now, updated_at := now }

/-! ## Basic lemmas -/

theorem has_role_iff {db : Db} {uid : UserId} {r : AppRole} :
    has_role db uid r = true ↔ ∃ ur ∈ db.user_roles, ur.user_id = uid ∧ ur.role = r := by
  simp [has_role, List.any_eq_true, Bool.and_eq_true, beq_iff_eq, decide_eq_true_eq]

theorem handle_new_user_ok {ps ps' : List ProfileRow} {u : AuthUser} {now : Nat}
    (h : handle_new_user ps u now = .ok ps') :
    ps.any (fun p => p.id == u.id) = false ∧ ps' = ps ++ [newProfile u now] := by
  unfold handle_new_user at h
  split at h
  · exact absurd h (by simp)
  · rename_i hdup
    refine ⟨Bool.eq_false_iff.mpr hdup, ?_⟩
    injection h with h
    exact h.symm

theorem createUser_ok {db db' : Db} {u : AuthUser} {now : Nat}
    (h : createUser db u now = .ok db') :
    db.users.any (fun v => v.id == u.id) = false ∧
    db.profiles.any (fun p => p.id == u.id) = false ∧
    db' = { db with users := db.users ++ [u], profiles := db.profiles ++ [newProfile u now] } := by
  unfold createUser at h
  split at h
  · exact absurd h (by simp)
  · rename_i hdup
    cases hh : handle_new_user db.profiles u now with
    | error e => rw [hh] at h; exact absurd h (by simp)
    | ok ps =>
      rw [hh] at h
      obtain ⟨hnone, hps⟩ := handle_new_user_ok hh
      injection h with h
      exact ⟨Bool.eq_false_iff.mpr hdup, hnone, by rw [← h, hps]⟩

theorem insertUserRole_ok {db db' : Db} {uid : UserId} {row : UserRoleRow}
    (h : insertUserRole db uid row = .ok db') :
    db' = { db with user_roles := db.user_roles ++ [row] } := by
  unfold insertUserRole at h
  split at h
  · split at h
    · exact absurd h (by simp)
    · injection h with h; exact h.symm
  · exact absurd h (by simp)

theorem insertAssignment_ok {db db' : Db} {uid : UserId} {row : AssignmentRow}
    (h : insertAssignment db uid row = .ok db') :
    assignmentInsertAllowed db uid row = true ∧
    db' = { db with assignments := db.assignments ++ [row] } := by
  unfold insertAssignment at h
  split at h
  · rename_i hallow
    split at h
    · exact absurd h (by simp)
    · split at h
      · injection h with h; exact ⟨hallow, h.symm⟩
      · exact absurd h (by simp)
  · exact absurd h (by simp)

theorem insertSubmission_ok {db db' : Db} {uid : UserId} {row : SubmissionRow}
    (h : insertSubmission db uid row = .ok db') :
    submissionInsertAllowed db uid row = true ∧
    pairExists db.submissions row.assignment_id row.student_id = false ∧
    db' = { db with submissions := db.submissions ++ [row] } := by
  unfold insertSubmission at h
  split at h
  · rename_i hallow
    split at h
    · exact absurd h (by simp)
    · split at h
      · exact absurd h (by simp)
      · rename_i hpair
        split at h
        · injection h with h
          exact ⟨hallow, Bool.eq_false_iff.mpr hpair, h.symm⟩
        · exact absurd h (by simp)
  · exact absurd h (by simp)

theorem rlsUpdateSubmissions_ok {db db' : Db} {uid : UserId}
    {cond : SubmissionRow → Bool} {f : SubmissionRow → SubmissionRow}
    (h : rlsUpdateSubmissions db uid cond f = .ok db') :
    db.submissions.any (fun s => cond s && submissionUpdateAllowed db uid s
      && !(submissionUpdateAllowed db uid (f s))) = false ∧
    db' = { db with submissions := submissionsAfterUpdate db uid cond f } := by
  unfold rlsUpdateSubmissions at h
  split at h
  · exact absurd h (by simp)
  · rename_i hok
    injection h with h
    exact ⟨Bool.eq_false_iff.mpr hok, h.symm⟩

theorem rlsUpdateProfiles_ok {db db' : Db} {uid : UserId}
    {cond : ProfileRow → Bool} {f : ProfileRow → ProfileRow} {now : Nat}
    (h : rlsUpdateProfiles db uid cond f now = .ok db') :
    db' = { db with profiles := profilesAfterUpdate db uid cond f now } := by
  unfold rlsUpdateProfiles at h
  split at h
  · exact absurd h (by simp)
  · injection h with h; exact h.symm

theorem rlsUpdateAssignments_ok {db db' : Db} {uid : UserId}
    {cond : AssignmentRow → Bool} {f : AssignmentRow → AssignmentRow} {now : Nat}
    (h : rlsUpdateAssignments db uid cond f now = .ok db') :
    db' = { db with assignments := assignmentsAfterUpdate db uid cond f now } := by
  unfold rlsUpdateAssignments at h
  split at h
  · exact absurd h (by simp)
  · injection h with h; exact h.symm

/-! ## Concrete states used to instantiate the theorems -/

/-- The submitted-state submission of student 5 for assignment 10. -/
def exSub : SubmissionRow :=
  ⟨20, 10, 5, "5/10/1.pdf", "hw.pdf", 1, none, none, .submitted, none⟩

/-- The same submission after the teacher graded it. -/
def exSubGraded : SubmissionRow :=
  ⟨20, 10, 5, "5/10/1.pdf", "hw.pdf", 1, some 88, some "Good work", .graded, some 2⟩

/-- The assignment created by teacher 6. -/
def exAssignment : AssignmentRow :=
  ⟨10, "Essay 1", none, "English", 7, 100, 6, 0, 0⟩

/-- The stored file uploaded by student 5 for assignment 10. -/
def exObj : StorageObject :=
  ⟨"submissions", ["5", "10", "1.pdf"]⟩

/-- A populated state: student 5, teacher 6, one assignment, one submitted
submission by the student. -/
def exDb : Db :=
  { users := [⟨5, some "Ann", "ann@example.edu"⟩, ⟨6, none, "tea@example.edu"⟩],
    profiles := [⟨5, "Ann", "ann@example.edu", 0, 0⟩, ⟨6, "User", "tea@example.edu", 0, 0⟩],
    user_roles := [⟨1, 5, .student⟩, ⟨2, 6, .teacher⟩],
    assignments := [exAssignment],
    submissions := [exSub],
    objects := [exObj] }

/-- `exDb` after the teacher graded the submission. -/
def exDbGraded : Db :=
  { exDb with submissions := [exSubGraded] }

/-- A state whose role table holds two rows for identity 7 — allowed by
`UNIQUE (user_id, role)`, which only forbids duplicating the same pair. -/
def twoRolesDb : Db :=
  { emptyDb with user_roles := [⟨1, 7, .teacher⟩, ⟨2, 7, .student⟩] }

/-- A state whose role table holds a single row for identity 7. -/
def oneRoleDb : Db :=
  { emptyDb with user_roles := [⟨1, 7, .teacher⟩] }

example : has_role exDb 5 .student = true := by decide
example : has_role exDb 5 .teacher = false := by decide
example : get_user_role exDb 6 = some .teacher := by decide
example : get_user_role exDb 9 = none := by decide

/-! ## Claim C6 -/

/-- C6 counterexample: over an arbitrary state of the role table the claimed
equivalence `has_role(X, R) = true ↔ get_user_role(X) = R` fails.  In
`twoRolesDb` identity 7 has both a `teacher` and a `student` row (the
schema's `UNIQUE (user_id, role)` does not forbid this); `has_role` sees the
`student` row while `get_user_role`'s `LIMIT 1` returns `teacher`. -/
theorem has_role_get_user_role_mismatch :
    ¬ (has_role twoRolesDb 7 .student = true ↔
       get_user_role twoRolesDb 7 = some .student) := by
  decide

/-- C6 (amended): `get_user_role` returns at most one tag by construction,
and on every state in which each identity holds at most one role row — the
invariant the application maintains — `has_role(X, R)` is true iff
`get_user_role(X) = R`. -/
theorem has_role_iff_get_user_role :
    ∀ (db : Db) (X : UserId) (R : AppRole),
      (∀ r1 ∈ db.user_roles, ∀ r2 ∈ db.user_roles,
         r1.user_id = r2.user_id → r1.role = r2.role) →
      (has_role db X R = true ↔ get_user_role db X = some R) := by
  intro db X R hone
  constructor
  · intro h
    obtain ⟨ur, hmem, huid, hrole⟩ := has_role_iff.mp h
    have hur_f : ur ∈ db.user_roles.filter (fun r => r.user_id == X) :=
      List.mem_filter.mpr ⟨hmem, by simp [huid]⟩
    cases hfil : db.user_roles.filter (fun r => r.user_id == X) with
    | nil => rw [hfil] at hur_f; cases hur_f
    | cons hd tl =>
      have hhd : hd ∈ db.user_roles.filter (fun r => r.user_id == X) := by
        rw [hfil]; exact List.mem_cons_self _ _
      obtain ⟨hhdmem, hhduid⟩ := List.mem_filter.mp hhd
      have hhduid' : hd.user_id = X := by simpa using hhduid
      have hsame : hd.role = ur.role := hone hd hhdmem ur hmem (by rw [hhduid', huid])
      unfold get_user_role
      rw [hfil]
      simp [hsame, hrole]
  · intro h
    unfold get_user_role at h
    cases hfil : db.user_roles.filter (fun r => r.user_id == X) with
    | nil => rw [hfil] at h; simp at h
    | cons hd tl =>
      rw [hfil] at h
      simp only [List.head?_cons, Option.map_some', Option.some.injEq] at h
      have hhd : hd ∈ db.user_roles.filter (fun r => r.user_id == X) := by
        rw [hfil]; exact List.mem_cons_self _ _
      obtain ⟨hmem, huid⟩ := List.mem_filter.mp hhd
      exact has_role_iff.mpr ⟨hd, hmem, by simpa using huid, h⟩

/-- Witness for C6 (amended) at a concrete single-role state. -/
theorem has_role_iff_get_user_role_inst :
    has_role oneRoleDb 7 .teacher = true ↔ get_user_role oneRoleDb 7 = some .teacher :=
  has_role_iff_get_user_role oneRoleDb 7 .teacher (by decide)

/-! ## Claim C1 -/

/-- C1: a student actor (holding the student role, not the teacher role)
can read a submission row exactly when it is their own, can target an update
at it exactly when it is their own and still `submitted`, a graded row is
never updatable by them, and any update statement they run leaves a graded
row untouched. -/
theorem student_submission_access :
    ∀ (db : Db) (S : UserId) (r : SubmissionRow),
      has_role db S .student = true → has_role db S .teacher = false →
      (submissionSelectAllowed db S r = true ↔ S = r.student_id) ∧
      (submissionUpdateAllowed db S r = true ↔ S = r.student_id ∧ r.status = .submitted) ∧
      (r.status = .graded → submissionUpdateAllowed db S r = false) ∧
      (r.status = .graded → r ∈ db.submissions →
        ∀ cond f db', rlsUpdateSubmissions db S cond f = .ok db' → r ∈ db'.submissions) := by
  intro db S r _hS hT
  have hupd : submissionUpdateAllowed db S r = true ↔ S = r.student_id ∧ r.status = .submitted := by
    simp [submissionUpdateAllowed, hT]
  have hgr : r.status = .graded → submissionUpdateAllowed db S r = false := by
    intro hg
    apply Bool.eq_false_iff.mpr
    intro hc
    have h2 := (hupd.mp hc).2
    rw [hg] at h2
    cases h2
  refine ⟨by simp [submissionSelectAllowed, hT], hupd, hgr, ?_⟩
  intro hg hmem cond f db' hok
  obtain ⟨-, hdb'⟩ := rlsUpdateSubmissions_ok hok
  subst hdb'
  show r ∈ submissionsAfterUpdate db S cond f
  unfold submissionsAfterUpdate
  have hmap := List.mem_map_of_mem
    (fun s => if cond s && submissionUpdateAllowed db S s then f s else s) hmem
  simpa [hgr hg] using hmap

/-- Witness for C1 at the graded concrete state: student 5's read access to
their own graded row, non-updatability of it, and survival of the row under
an update attempt rewriting `file_url`. -/
theorem student_submission_access_inst :
    (submissionSelectAllowed exDbGraded 5 exSubGraded = true ↔ 5 = exSubGraded.student_id) ∧
    submissionUpdateAllowed exDbGraded 5 exSubGraded = false ∧
    exSubGraded ∈ exDbGraded.submissions :=
  have h := student_submission_access exDbGraded 5 exSubGraded (by decide) (by decide)
  ⟨h.1, h.2.2.1 (by decide),
    h.2.2.2 (by decide) (by decide) (fun _ => true)
      (fun s => { s with file_url := "elsewhere" }) exDbGraded (by rfl)⟩

/-! ## Claim C2 -/

/-- C2: an actor with the teacher role can read every submission row, can
target an update at every submission row whatever its status and owner, and
the grading update issued by `handleGradeSubmit` succeeds, writing grade,
feedback, status `graded` and the grading timestamp onto every matching row. -/
theorem teacher_submission_access :
    ∀ (db : Db) (T : UserId), has_role db T .teacher = true →
      ∀ (r : SubmissionRow) (subId : Nat) (g : Int) (fb : Option String) (now : Nat),
        submissionSelectAllowed db T r = true ∧
        submissionUpdateAllowed db T r = true ∧
        ∃ db', gradeSubmissionOp db T subId g fb now = .ok db' ∧
          ∀ s ∈ db.submissions, s.id = subId → applyGrade g fb now s ∈ db'.submissions := by
  intro db T hT r subId g fb now
  have hupd : ∀ s : SubmissionRow, submissionUpdateAllowed db T s = true := by
    intro s; simp [submissionUpdateAllowed, hT]
  refine ⟨by simp [submissionSelectAllowed, hT], hupd r, ?_⟩
  have hany : (db.submissions.any fun s => (s.id == subId) && submissionUpdateAllowed db T s
      && !(submissionUpdateAllowed db T (applyGrade g fb now s))) = false := by
    apply List.any_eq_false.mpr
    intro s _hs
    simp [hupd]
  refine ⟨{ db with submissions := submissionsAfterUpdate db T (fun s => s.id == subId) (applyGrade g fb now) }, ?_, ?_⟩
  · unfold gradeSubmissionOp rlsUpdateSubmissions
    rw [hany]
    simp
  · intro s hs hid
    show applyGrade g fb now s ∈ submissionsAfterUpdate db T (fun s => s.id == subId) (applyGrade g fb now)
    unfold submissionsAfterUpdate
    have hmap := List.mem_map_of_mem
      (fun s => if (s.id == subId) && submissionUpdateAllowed db T s then applyGrade g fb now s else s) hs
    simpa [hid, hupd] using hmap

/-- Witness for C2: teacher 6 reads and grades student 5's submission in the
concrete state, producing the graded row. -/
theorem teacher_submission_access_inst :
    submissionSelectAllowed exDb 6 exSub = true ∧
    submissionUpdateAllowed exDb 6 exSub = true ∧
    ∃ db', gradeSubmissionOp exDb 6 20 88 (some "Good work") 2 = .ok db' ∧
      ∀ s ∈ exDb.submissions, s.id = 20 → applyGrade 88 (some "Good work") 2 s ∈ db'.submissions :=
  teacher_submission_access exDb 6 (by decide) exSub 20 88 (some "Good work") 2

/-! ## Claim C3 -/

/-- C3: an assignment insert is permitted by the policy exactly for a
teacher inserting with their own `created_by` — so an authorized insert
with a fresh id and an existing creator succeeds, a successful insert
implies teacher and ownership, and any other caller is rejected regardless
of the row's values; update and delete are permitted exactly for the owning
teacher, and a non-teacher or non-owner's update or delete statement leaves
the row untouched. -/
theorem assignment_writes_owner_teacher :
    ∀ (db : Db) (X : UserId) (row : AssignmentRow),
      (∀ db', insertAssignment db X row = .ok db' →
        has_role db X .teacher = true ∧ X = row.created_by) ∧
      (has_role db X .teacher = false ∨ X ≠ row.created_by →
        insertAssignment db X row = .error .rlsViolation) ∧
      (assignmentUpdateAllowed db X row = true ↔
        has_role db X .teacher = true ∧ X = row.created_by) ∧
      (assignmentDeleteAllowed db X row = true ↔
        has_role db X .teacher = true ∧ X = row.created_by) ∧
      (has_role db X .teacher = false ∨ X ≠ row.created_by → row ∈ db.assignments →
        (∀ cond f now db', rlsUpdateAssignments db X cond f now = .ok db' →
          row ∈ db'.assignments) ∧
        (∀ cond, row ∈ (rlsDeleteAssignments db X cond).assignments)) ∧
      (assignmentInsertAllowed db X row = true ↔
        has_role db X .teacher = true ∧ X = row.created_by) ∧
      (has_role db X .teacher = true → X = row.created_by →
        (db.assignments.any fun a => a.id == row.id) = false →
        (db.users.any fun v => v.id == row.created_by) = true →
        insertAssignment db X row = .ok { db with assignments := db.assignments ++ [row] }) := by
  intro db X row
  have hiff : assignmentInsertAllowed db X row = true ↔
      has_role db X .teacher = true ∧ X = row.created_by := by
    simp [assignmentInsertAllowed]
  have hnot : has_role db X .teacher = false ∨ X ≠ row.created_by →
      assignmentInsertAllowed db X row = false := by
    intro h
    apply Bool.eq_false_iff.mpr
    intro hc
    obtain ⟨h1, h2⟩ := hiff.mp hc
    rcases h with h | h
    · rw [h1] at h; cases h
    · exact h h2
  have hupdiff : assignmentUpdateAllowed db X row = true ↔
      has_role db X .teacher = true ∧ X = row.created_by := by
    simp [assignmentUpdateAllowed]
  have hdeliff : assignmentDeleteAllowed db X row = true ↔
      has_role db X .teacher = true ∧ X = row.created_by := by
    simp [assignmentDeleteAllowed]
  refine ⟨?_, ?_, hupdiff, hdeliff, ?_, hiff, ?_⟩
  · intro db' hok
    exact hiff.mp (insertAssignment_ok hok).1
  · intro h
    unfold insertAssignment
    rw [hnot h]
    rfl
  · intro h hmem
    have hupdf : assignmentUpdateAllowed db X row = false := by
      apply Bool.eq_false_iff.mpr
      intro hc
      obtain ⟨h1, h2⟩ := hupdiff.mp hc
      rcases h with h | h
      · rw [h1] at h; cases h
      · exact h h2
    have hdelf : assignmentDeleteAllowed db X row = false := by
      apply Bool.eq_false_iff.mpr
      intro hc
      obtain ⟨h1, h2⟩ := hdeliff.mp hc
      rcases h with h | h
      · rw [h1] at h; cases h
      · exact h h2
    constructor
    · intro cond f now db' hok
      rw [rlsUpdateAssignments_ok hok]
      show row ∈ assignmentsAfterUpdate db X cond f now
      unfold assignmentsAfterUpdate
      have hmap := List.mem_map_of_mem
        (fun r => if cond r && assignmentUpdateAllowed db X r
                  then update_updated_at_assignment now (f r) else r) hmem
      simpa [hupdf] using hmap
    · intro cond
      show row ∈ _
      unfold rlsDeleteAssignments
      exact List.mem_filter.mpr ⟨hmem, by simp [hdelf]⟩
  · intro h1 h2 hfresh hfk
    have hallow : assignmentInsertAllowed db X row = true := hiff.mpr ⟨h1, h2⟩
    unfold insertAssignment
    rw [hallow, hfresh, hfk]
    rfl

/-- A second assignment, created by teacher 6. -/
def exAssignment2 : AssignmentRow := ⟨11, "Essay 2", none, "English", 9, 100, 6, 3, 3⟩

/-- Witness for C3: student 5's attempt to insert an assignment (even naming
themself as `created_by`) is rejected, teacher 6's assignment survives a
delete statement run by student 5, and teacher 6's own insert of a fresh
assignment succeeds. -/
theorem assignment_writes_owner_teacher_inst :
    insertAssignment exDb 5 { exAssignment with id := 11, created_by := 5 } =
      .error .rlsViolation ∧
    exAssignment ∈ (rlsDeleteAssignments exDb 5 (fun _ => true)).assignments ∧
    insertAssignment exDb 6 exAssignment2 =
      .ok { exDb with assignments := exDb.assignments ++ [exAssignment2] } :=
  have h := assignment_writes_owner_teacher exDb 5 { exAssignment with id := 11, created_by := 5 }
  have h10 := assignment_writes_owner_teacher exDb 5 exAssignment
  have h6 := assignment_writes_owner_teacher exDb 6 exAssignment2
  ⟨h.2.1 (Or.inl (by decide)),
    (h10.2.2.2.2.1 (Or.inl (by decide)) (by decide)).2 (fun _ => true),
    h6.2.2.2.2.2.2 (by decide) (by decide) (by decide) (by decide)⟩

/-! ## Claim C4 -/

/-- A storage object whose name has no folder part: its only segment is its
file name. -/
def bareObj : StorageObject := ⟨"submissions", ["7"]⟩

/-- C4 counterexample: the upload policy compares the caller to the first
*folder* of the path (`storage.foldername` drops the last segment), not to
the first path segment.  For the single-segment name `"7"` the first path
segment equals caller 7's identity, yet the insert is denied because the
folder list is empty. -/
theorem storage_first_segment_mismatch :
    ¬ (storageInsertAllowed emptyDb 7 bareObj = true ↔
       firstPathSegment bareObj.pathSegs = some (toString 7)) := by
  decide

theorem head?_dropLast {l : List String} {s : String} :
    l.dropLast.head? = some s ↔ 2 ≤ l.length ∧ l.head? = some s := by
  match l with
  | [] => simp
  | [a] => simp
  | a :: b :: t =>
    have hdl : (a :: b :: t).dropLast = a :: (b :: t).dropLast := rfl
    rw [hdl]
    simp only [List.head?_cons, List.length_cons]
    constructor
    · intro h
      exact ⟨by omega, h⟩
    · intro h
      exact h.2

/-- C4 (amended): in the submissions bucket, uploading at `p` is allowed iff
`p` has a folder part (at least two segments) and the caller equals its
first segment; reading `p` is allowed iff that same condition holds or the
caller has the teacher role; and the client-built upload path
`${user.id}/${assignmentId}/${timestamp}.${ext}` always has the uploading
student's identity as its first segment. -/
theorem storage_policy_first_segment :
    ∀ (db : Db) (X : UserId) (o : StorageObject) (aid now : Nat) (ext : String),
      o.bucket_id = "submissions" →
      (storageInsertAllowed db X o = true ↔
        2 ≤ o.pathSegs.length ∧ firstPathSegment o.pathSegs = some (toString X)) ∧
      (storageSelectAllowed db X o = true ↔
        (2 ≤ o.pathSegs.length ∧ firstPathSegment o.pathSegs = some (toString X)) ∨
        has_role db X .teacher = true) ∧
      firstPathSegment (submitFilePathSegs X aid now ext) = some (toString X) ∧
      2 ≤ (submitFilePathSegs X aid now ext).length := by
  intro db X o aid now ext hb
  have hfold : ∀ s : String, firstFolder o.pathSegs = some s ↔
      2 ≤ o.pathSegs.length ∧ o.pathSegs.head? = some s := by
    intro s
    unfold firstFolder foldername
    exact head?_dropLast
  refine ⟨?_, ?_, rfl, by simp [submitFilePathSegs]⟩
  · unfold storageInsertAllowed firstPathSegment
    simp [hb, decide_eq_true_eq, hfold]
  · unfold storageSelectAllowed firstPathSegment
    simp [hb, decide_eq_true_eq, hfold]

/-- Witness for C4 (amended) at student 5's stored file in the concrete
state. -/
theorem storage_policy_first_segment_inst :
    (storageInsertAllowed exDb 5 exObj = true ↔
      2 ≤ exObj.pathSegs.length ∧ firstPathSegment exObj.pathSegs = some (toString 5)) ∧
    (storageSelectAllowed exDb 5 exObj = true ↔
      (2 ≤ exObj.pathSegs.length ∧ firstPathSegment exObj.pathSegs = some (toString 5)) ∨
      has_role exDb 5 .teacher = true) ∧
    firstPathSegment (submitFilePathSegs 5 10 1 "pdf") = some (toString 5) ∧
    2 ≤ (submitFilePathSegs 5 10 1 "pdf").length :=
  storage_policy_first_segment exDb 5 exObj 10 1 "pdf" (by rfl)

/-! ## Claim C9 -/

/-- C9: the `updated_at` column of every row written by an update to
`profiles` or `assignments` equals the time of the write, whatever value
the update statement itself supplied for it. -/
theorem updated_at_always_now :
    (∀ (now : Nat) (f : ProfileRow → ProfileRow) (r : ProfileRow),
      (update_updated_at_column now (f r)).updated_at = now) ∧
    (∀ (now : Nat) (f : AssignmentRow → AssignmentRow) (r : AssignmentRow),
      (update_updated_at_assignment now (f r)).updated_at = now) ∧
    (∀ db uid cond f now db', rlsUpdateProfiles db uid cond f now = .ok db' →
      ∀ q ∈ db'.profiles, q ∈ db.profiles ∨ q.updated_at = now) ∧
    (∀ db uid cond f now db', rlsUpdateAssignments db uid cond f now = .ok db' →
      ∀ q ∈ db'.assignments, q ∈ db.assignments ∨ q.updated_at = now) := by
  refine ⟨fun _ _ _ => rfl, fun _ _ _ => rfl, ?_, ?_⟩
  · intro db uid cond f now db' hok q hq
    have hdb' := rlsUpdateProfiles_ok hok
    subst hdb'
    unfold profilesAfterUpdate at hq
    obtain ⟨r, hr, hfr⟩ := List.mem_map.mp hq
    by_cases hc : (cond r && profileUpdateAllowed db uid r) = true
    · right
      rw [← hfr]
      simp [hc, update_updated_at_column]
    · left
      rw [← hfr]
      have hcf : (cond r && profileUpdateAllowed db uid r) = false := Bool.eq_false_iff.mpr hc
      simp [hcf, hr]
  · intro db uid cond f now db' hok q hq
    have hdb' := rlsUpdateAssignments_ok hok
    subst hdb'
    unfold assignmentsAfterUpdate at hq
    obtain ⟨r, hr, hfr⟩ := List.mem_map.mp hq
    by_cases hc : (cond r && assignmentUpdateAllowed db uid r) = true
    · right
      rw [← hfr]
      simp [hc, update_updated_at_assignment]
    · left
      rw [← hfr]
      have hcf : (cond r && assignmentUpdateAllowed db uid r) = false := Bool.eq_false_iff.mpr hc
      simp [hcf, hr]

/-- `exDb` after student 5 runs a profile update that tries to force
`updated_at := 3` at time 9: the trigger wrote 9, and teacher 6's row,
invisible to the caller, is untouched. -/
def wProfilesDb : Db :=
  { exDb with profiles := [⟨5, "Ann", "ann@example.edu", 0, 9⟩, ⟨6, "User", "tea@example.edu", 0, 0⟩] }

/-- Witness for C9: a concrete update that supplies `updated_at := 3` still
yields rows stamped with the write time 9. -/
theorem updated_at_always_now_inst :
    (update_updated_at_column 9 ⟨5, "Ann", "ann@example.edu", 0, 3⟩).updated_at = 9 ∧
    ((⟨5, "Ann", "ann@example.edu", 0, 9⟩ : ProfileRow) ∈ exDb.profiles ∨
      (⟨5, "Ann", "ann@example.edu", 0, 9⟩ : ProfileRow).updated_at = 9) :=
  ⟨updated_at_always_now.1 9 (fun _ => ⟨5, "Ann", "ann@example.edu", 0, 3⟩)
      ⟨5, "Ann", "ann@example.edu", 0, 0⟩,
    updated_at_always_now.2.2.1 exDb 5 (fun _ => true)
      (fun r => { r with updated_at := 3 }) 9
      wProfilesDb (by rfl) ⟨5, "Ann", "ann@example.edu", 0, 9⟩ (by decide)⟩

/-! ## Claim C10 -/

/-- An assignment whose stored `max_score` is 0 (the schema has no check
constraint forbidding it). -/
def zeroMaxAssignment : AssignmentInfo := ⟨10, "Essay 1", "English", 0⟩

/-- C10 counterexample: the claim says a grade exceeding the assignment's
`max_score` issues no update, but JavaScript's `||` also replaces a present
`max_score` of 0 by 100 (0 is falsy), so grade 50 against `max_score = 0`
does issue the update. -/
theorem grade_validation_mismatch :
    ¬ (zeroMaxAssignment.max_score < 50 →
       handleGradeSubmit (some 50) "" (some zeroMaxAssignment) 1 = none) := by
  decide

/-- C10 (amended): no update is issued iff the entered grade is not a
number, is below 0, or exceeds the effective maximum — the assignment's
`max_score`, with 100 used when the assignment reference is absent or its
`max_score` is 0 — and when `0 ≤ grade ≤ effective maximum` the update
carrying grade, feedback, status `graded` and the grading timestamp is
issued. -/
theorem grade_validation_range :
    ∀ (gv : Option Int) (fb : String) (a : Option AssignmentInfo) (now : Nat),
      (handleGradeSubmit gv fb a now = none ↔
        gv = none ∨ ∃ g, gv = some g ∧ (g < 0 ∨ effectiveMaxScore a < g)) ∧
      (∀ g, gv = some g → 0 ≤ g → g ≤ effectiveMaxScore a →
        handleGradeSubmit gv fb a now =
          some { grade := g, feedback := if fb = "" then none else some fb,
                 status := .graded, graded_at := now }) := by
  intro gv fb a now
  constructor
  · cases gv with
    | none => simp [handleGradeSubmit]
    | some g =>
      by_cases h : g < 0 ∨ effectiveMaxScore a < g
      · simp [handleGradeSubmit, h]
      · simp [handleGradeSubmit, h]
  · intro g hg h0 hle
    subst hg
    have h : ¬ (g < 0 ∨ effectiveMaxScore a < g) := by omega
    simp [handleGradeSubmit, h]

/-- Witness for C10 (amended): grading 88/100 issues the graded payload. -/
theorem grade_validation_range_inst :
    handleGradeSubmit (some 88) "Good work" (some ⟨10, "Essay 1", "English", 100⟩) 2 =
      some { grade := 88, feedback := some "Good work", status := .graded, graded_at := 2 } :=
  (grade_validation_range (some 88) "Good work" (some ⟨10, "Essay 1", "English", 100⟩) 2).2
    88 rfl (by decide) (by decide)

/-! ## Invariant preservation lemmas -/

theorem pairExists_false_iff {subs : List SubmissionRow} {aid : Nat} {sid : UserId} :
    pairExists subs aid sid = false ↔
    ∀ s ∈ subs, ¬(s.assignment_id = aid ∧ s.student_id = sid) := by
  simp [pairExists, List.any_eq_false, Bool.and_eq_true, beq_iff_eq, not_and]

theorem uniquePairs_insert {db db' : Db} {uid : UserId} {row : SubmissionRow}
    (h : insertSubmission db uid row = .ok db')
    (hu : uniquePairs db.submissions) : uniquePairs db'.submissions := by
  obtain ⟨-, hpair, hdb'⟩ := insertSubmission_ok h
  subst hdb'
  show uniquePairs (db.submissions ++ [row])
  unfold uniquePairs at *
  rw [List.pairwise_append]
  refine ⟨hu, by simp, ?_⟩
  intro a ha b hb
  simp only [List.mem_singleton] at hb
  subst hb
  exact pairExists_false_iff.mp hpair a ha

theorem uniquePairs_gradeMap {db db' : Db} {uid : UserId} {cond : SubmissionRow → Bool}
    {g : Int} {fb : Option String} {now : Nat}
    (h : rlsUpdateSubmissions db uid cond (applyGrade g fb now) = .ok db')
    (hu : uniquePairs db.submissions) : uniquePairs db'.submissions := by
  obtain ⟨-, hdb'⟩ := rlsUpdateSubmissions_ok h
  subst hdb'
  show uniquePairs (submissionsAfterUpdate db uid cond (applyGrade g fb now))
  unfold uniquePairs at *
  unfold submissionsAfterUpdate
  refine List.Pairwise.map _ (fun a b hab => ?_) hu
  have hfields : ∀ s : SubmissionRow,
      ((if cond s && submissionUpdateAllowed db uid s then applyGrade g fb now s else s).assignment_id
        = s.assignment_id) ∧
      ((if cond s && submissionUpdateAllowed db uid s then applyGrade g fb now s else s).student_id
        = s.student_id) := by
    intro s
    by_cases hc : (cond s && submissionUpdateAllowed db uid s) = true
    · simp [hc, applyGrade]
    · have hcf := Bool.eq_false_iff.mpr hc
      simp [hcf]
  intro hcon
  apply hab
  obtain ⟨ha1, ha2⟩ := hfields a
  obtain ⟨hb1, hb2⟩ := hfields b
  rw [ha1, ha2, hb1, hb2] at hcon
  exact hcon

theorem uniquePairs_step {db db' : Db} (h : Step db db')
    (hu : uniquePairs db.submissions) : uniquePairs db'.submissions := by
  cases h with
  | signup u now h =>
    obtain ⟨-, -, hdb'⟩ := createUser_ok h
    subst hdb'
    exact hu
  | chooseRole uid row h =>
    rw [insertUserRole_ok h]
    exact hu
  | newAssignment uid row h =>
    rw [(insertAssignment_ok h).2]
    exact hu
  | submit uid newId aid fp fn now h =>
    exact uniquePairs_insert h hu
  | grade uid subId g fb now h =>
    exact uniquePairs_gradeMap h hu

theorem usersHaveProfiles_step {db db' : Db} (h : Step db db')
    (hu : usersHaveProfiles db) : usersHaveProfiles db' := by
  cases h with
  | signup u now h =>
    obtain ⟨-, -, hdb'⟩ := createUser_ok h
    subst hdb'
    intro v hv
    simp only [List.mem_append, List.mem_singleton] at hv
    rcases hv with hv | hv
    · obtain ⟨p, hp, hpid⟩ := hu v hv
      exact ⟨p, List.mem_append_left _ hp, hpid⟩
    · subst hv
      exact ⟨newProfile v now, List.mem_append_right _ (List.mem_singleton.mpr rfl), rfl⟩
  | chooseRole uid row h =>
    rw [insertUserRole_ok h]
    exact hu
  | newAssignment uid row h =>
    rw [(insertAssignment_ok h).2]
    exact hu
  | submit uid newId aid fp fn now h =>
    obtain ⟨-, -, hdb'⟩ := insertSubmission_ok h
    subst hdb'
    exact hu
  | grade uid subId g fb now h =>
    obtain ⟨-, hdb'⟩ := rlsUpdateSubmissions_ok h
    subst hdb'
    exact hu

/-! ## Claim C5 -/

/-- C5: every reachable state holds at most one submission row per
`(assignment_id, student_id)` pair, and an insert whose pair is already
present is rejected with an error — the returned state is the error
alternative, so the stored state is unchanged. -/
theorem submission_pair_uniqueness :
    (∀ db, Reachable db → uniquePairs db.submissions) ∧
    (∀ db uid row, pairExists db.submissions row.assignment_id row.student_id = true →
      ∃ e, insertSubmission db uid row = .error e) := by
  constructor
  · intro db h
    induction h with
    | init => simp [uniquePairs, emptyDb]
    | next _ hstep ih => exact uniquePairs_step hstep ih
  · intro db uid row h
    by_cases hA : submissionInsertAllowed db uid row = true
    · by_cases hB : (db.submissions.any fun s => s.id == row.id) = true
      · exact ⟨.uniqueViolation, by simp [insertSubmission, hA, hB]⟩
      · exact ⟨.uniqueViolation, by simp [insertSubmission, hA, hB, h]⟩
    · exact ⟨.rlsViolation, by simp [insertSubmission, hA]⟩

/-- Witness for C5: the empty state is reachable and satisfies the
invariant, and student 5's second insert for assignment 10 errors. -/
theorem submission_pair_uniqueness_inst :
    uniquePairs emptyDb.submissions ∧
    ∃ e, insertSubmission exDb 5 { exSub with id := 21 } = .error e :=
  ⟨submission_pair_uniqueness.1 emptyDb Reachable.init,
    submission_pair_uniqueness.2 exDb 5 { exSub with id := 21 } (by decide)⟩

/-! ## Claim C7 -/

/-- C7: identity creation inserts exactly one profile row carrying the new
identity's id, the signup display name (placeholder `"User"` when absent)
and the contact address, in the same transaction; and in every reachable
state every identity has a matching profile row. -/
theorem profile_bootstrap :
    (∀ db u now db', createUser db u now = .ok db' →
      db'.profiles = db.profiles ++ [newProfile u now] ∧
      (newProfile u now).id = u.id ∧
      (newProfile u now).full_name = u.raw_full_name.getD "User" ∧
      (newProfile u now).email = u.email ∧
      (db'.profiles.filter fun p => p.id == u.id).length = 1 ∧
      db'.users = db.users ++ [u]) ∧
    (∀ db, Reachable db → usersHaveProfiles db) := by
  constructor
  · intro db u now db' hok
    obtain ⟨-, hnoprof, hdb'⟩ := createUser_ok hok
    subst hdb'
    refine ⟨rfl, rfl, rfl, rfl, ?_, rfl⟩
    show ((db.profiles ++ [newProfile u now]).filter fun p => p.id == u.id).length = 1
    rw [List.filter_append]
    have hold : (db.profiles.filter fun p => p.id == u.id) = [] := by
      rw [List.filter_eq_nil_iff]
      intro p hp
      have := List.any_eq_false.mp hnoprof p hp
      simpa using this
    rw [hold]
    simp [newProfile]
  · intro db h
    induction h with
    | init => intro u hu; cases hu
    | next _ hstep ih => exact usersHaveProfiles_step hstep ih

/-- Identity 3, signing up with no display name. -/
def newUser3 : AuthUser := ⟨3, none, "new@example.edu"⟩

/-- `exDb` after identity 3 signs up with no display name at time 4. -/
def exDbAfterSignup : Db :=
  { exDb with users := exDb.users ++ [newUser3], profiles := exDb.profiles ++ [newProfile newUser3 4] }

/-- Witness for C7: the concrete signup of identity 3 appends exactly its
profile row, and the empty reachable state satisfies the invariant. -/
theorem profile_bootstrap_inst :
    exDbAfterSignup.profiles = exDb.profiles ++ [newProfile newUser3 4] ∧
    (exDbAfterSignup.profiles.filter fun p => p.id == 3).length = 1 ∧
    usersHaveProfiles emptyDb :=
  have h := profile_bootstrap.1 exDb newUser3 4 exDbAfterSignup (by rfl)
  ⟨h.1, h.2.2.2.2.1, profile_bootstrap.2 emptyDb Reachable.init⟩

/-! ## Claim C8 -/

/-- C8: the submission insert issued by the client always creates the row
with status `submitted` and empty grading fields, and across any step of
the system a row whose status is `graded` either was already stored or was
written by the grading update of an actor holding the teacher role, which
in the same write stored the grade, the feedback and the grading
timestamp. -/
theorem submission_status_lifecycle :
    (∀ db uid newId aid fp fn now db',
      clientSubmit db uid newId aid fp fn now = .ok db' →
      db'.submissions = db.submissions ++ [clientSubmitRow uid newId aid fp fn now] ∧
      (clientSubmitRow uid newId aid fp fn now).status = .submitted ∧
      (clientSubmitRow uid newId aid fp fn now).grade = none ∧
      (clientSubmitRow uid newId aid fp fn now).graded_at = none) ∧
    (∀ db db', Step db db' → ∀ r' ∈ db'.submissions, r'.status = .graded →
      r' ∈ db.submissions ∨
      ∃ uid g fb now, has_role db uid .teacher = true ∧
        r'.grade = some g ∧ r'.feedback = fb ∧ r'.graded_at = some now) := by
  constructor
  · intro db uid newId aid fp fn now db' hok
    obtain ⟨-, -, hdb'⟩ := insertSubmission_ok hok
    subst hdb'
    exact ⟨rfl, rfl, rfl, rfl⟩
  · intro db db' hstep r' hr' hg
    cases hstep with
    | signup u now h =>
      obtain ⟨-, -, hdb'⟩ := createUser_ok h
      subst hdb'
      exact Or.inl hr'
    | chooseRole uid row h =>
      rw [insertUserRole_ok h] at hr'
      exact Or.inl hr'
    | newAssignment uid row h =>
      rw [(insertAssignment_ok h).2] at hr'
      exact Or.inl hr'
    | submit uid newId aid fp fn now h =>
      obtain ⟨-, -, hdb'⟩ := insertSubmission_ok h
      subst hdb'
      have hr'' : r' ∈ db.submissions ++ [clientSubmitRow uid newId aid fp fn now] := hr'
      rcases List.mem_append.mp hr'' with hold | hnew
      · exact Or.inl hold
      · exfalso
        rw [List.mem_singleton.mp hnew] at hg
        cases hg
    | grade uid subId g fb now h =>
      obtain ⟨hany, hdb'⟩ := rlsUpdateSubmissions_ok h
      subst hdb'
      have hr'' : r' ∈ submissionsAfterUpdate db uid (fun s => s.id == subId)
          (applyGrade g fb now) := hr'
      unfold submissionsAfterUpdate at hr''
      obtain ⟨s, hs, hFs⟩ := List.mem_map.mp hr''
      by_cases hc : ((s.id == subId) && submissionUpdateAllowed db uid s) = true
      · right
        have h1 := List.any_eq_false.mp hany s hs
        have hcheck : submissionUpdateAllowed db uid (applyGrade g fb now s) = true := by
          by_contra hB
          apply h1
          have hBf : submissionUpdateAllowed db uid (applyGrade g fb now s) = false :=
            Bool.eq_false_iff.mpr hB
          simp [hc, hBf]
        have hteacher : has_role db uid .teacher = true := by
          simpa [submissionUpdateAllowed, applyGrade] using hcheck
        refine ⟨uid, g, fb, now, hteacher, ?_, ?_, ?_⟩
        all_goals rw [← hFs]; simp [hc, applyGrade]
      · left
        have hcf := Bool.eq_false_iff.mpr hc
        rw [← hFs]
        simpa [hcf] using hs

/-- The state before student 5's upload: `exDb` without the submission. -/
def preSubmitDb : Db := { exDb with submissions := [] }

/-- Witness for C8: the concrete upload stores the `submitted` row, and the
concrete grading step by teacher 6 accounts for the graded row's fields. -/
theorem submission_status_lifecycle_inst :
    (exDb.submissions = preSubmitDb.submissions ++ [clientSubmitRow 5 20 10 "5/10/1.pdf" "hw.pdf" 1] ∧
      (clientSubmitRow 5 20 10 "5/10/1.pdf" "hw.pdf" 1).status = .submitted) ∧
    (exSubGraded ∈ exDb.submissions ∨
      ∃ uid g fb now, has_role exDb uid .teacher = true ∧
        exSubGraded.grade = some g ∧ exSubGraded.feedback = fb ∧
        exSubGraded.graded_at = some now) :=
  have h1 := submission_status_lifecycle.1 preSubmitDb 5 20 10 "5/10/1.pdf" "hw.pdf" 1
    exDb (by rfl)
  ⟨⟨h1.1, h1.2.1⟩,
    submission_status_lifecycle.2 exDb exDbGraded
      (Step.grade 6 20 88 (some "Good work") 2 (by rfl))
      exSubGraded (by decide) (by decide)⟩

end OnlineAssignmentSystem
